import Mathlib

/-
Verification of the Portfolio State & Risk-Guarded Execution Engine of
`swiss_trader.py` (repository escherbot).

The engine is shallowly embedded:
  * money amounts and prices are exact rationals (Python runs on floats;
    every property checked here concerns comparisons, branch structure and
    exact book-keeping identities, which we model over ℚ);
  * Python dicts (`holdings`, `cost_basis`, the `current_prices` map) are
    association lists with first-match lookup, in-place update and key
    removal, mirroring insertion-ordered dict semantics;
  * Python `int(x)` (used for quantity clamping) is truncation toward
    zero, `x // 2` is floor division;
  * the wall clock read by `datetime.datetime.now()` when a trade record
    is appended is an explicit `now : String` input;
  * the module-level risk constants (MAX_POSITION_PCT, ...) are collected
    in a `Config` record; `defaultConfig` holds the literal values from
    the source.
-/

namespace SwissTrader

/-- The three trade actions a proposal can carry (`decision["action"]`). -/
inductive Action
  | BUY
  | SELL
  | HOLD
deriving DecidableEq, Repr

/-- Confidence levels attached to a proposal (`decision["confidence"]`). -/
inductive Confidence
  | low
  | medium
  | high
deriving DecidableEq, Repr

/-- A proposed trade, produced by the risk sweep or by the external
decision source, consumed by `execute_trade`. -/
structure Proposal where
  ticker : String
  action : Action
  quantity : ℤ
  confidence : Confidence
  reason : String
deriving DecidableEq, Repr

/-- A persisted trade record, as appended to `pf["trades"]` by
`execute_trade` (source lines 740-749 and 768-777). -/
structure TradeRec where
  date : String
  ticker : String
  action : Action
  quantity : ℤ
  price : ℚ
  total : ℚ
  confidence : Confidence
  reason : String
deriving DecidableEq, Repr

/-- The ledger fields of `portfolio.json` that `execute_trade` reads or
mutates: `cash`, `holdings`, `cost_basis` and the append-only `trades`
log.  (`history` and `reports` are never touched by `execute_trade` or
`enforce_risk_rules` and are omitted.) -/
structure Ledger where
  cash : ℚ
  holdings : List (String × ℤ)
  cost_basis : List (String × ℚ)
  trades : List TradeRec
deriving DecidableEq, Repr

/-- Why `execute_trade` refused to mutate the ledger. -/
inductive SkipReason
  | lowConfidence
  | priceUnavailable
  | belowMinTradeSize
  | cashReserveBreach
  | positionLimitBreach
  | maxPositionsReached
  | insufficientCash
  | insufficientShares
deriving DecidableEq, Repr

/-- Result of `execute_trade`: an executed trade (the printed ✅/🔻 line),
a skip with its reason (the printed ⚠️/⏭️ line), or a pass-through HOLD. -/
inductive Outcome
  | executed (action : Action) (ticker : String) (quantity : ℤ) (price : ℚ) (cost : ℚ)
  | skipped (reason : SkipReason)
  | held
deriving DecidableEq, Repr

/-- The module-level risk-management constants (source lines 36-41). -/
structure Config where
  MAX_POSITION_PCT : ℚ
  MIN_CASH_RESERVE_PCT : ℚ
  STOP_LOSS_PCT : ℚ
  TAKE_PROFIT_PCT : ℚ
  MAX_POSITIONS : ℕ
  MIN_TRADE_VALUE : ℚ
deriving DecidableEq, Repr

/-- The literal constants of `swiss_trader.py`. -/
def defaultConfig : Config :=
  { MAX_POSITION_PCT := 10 / 100
  , MIN_CASH_RESERVE_PCT := 15 / 100
  , STOP_LOSS_PCT := -10 / 100
  , TAKE_PROFIT_PCT := 20 / 100
  , MAX_POSITIONS := 12
  , MIN_TRADE_VALUE := 500 }

/-- First-match lookup in an association list: Python `d.get(k)`. -/
def dictFind {α : Type} (m : List (String × α)) (k : String) : Option α :=
  match m with
  | [] => none
  | (k', v) :: rest => if k' = k then some v else dictFind rest k

/-- Python `d.get(k, dflt)`. -/
def dictGet {α : Type} (m : List (String × α)) (k : String) (dflt : α) : α :=
  (dictFind m k).getD dflt

/-- Python `d[k] = v`: replace the value at the first occurrence of `k`,
or append `(k, v)` when `k` is absent (insertion-ordered dict update). -/
def dictSet {α : Type} (m : List (String × α)) (k : String) (v : α) : List (String × α) :=
  match m with
  | [] => [(k, v)]
  | (k', v') :: rest => if k' = k then (k, v) :: rest else (k', v') :: dictSet rest k v

/-- Python `del d[k]` (a no-op when `k` is absent, used where the source
guards the deletion with `if k in d`). -/
def dictErase {α : Type} (m : List (String × α)) (k : String) : List (String × α) :=
  match m with
  | [] => []
  | (k', v) :: rest => if k' = k then dictErase rest k else (k', v) :: dictErase rest k

/-- Python `int(x)` on a rational: truncation toward zero. -/
def pyInt (q : ℚ) : ℤ :=
  if 0 ≤ q then ⌊q⌋ else -⌊-q⌋

/-- Python `round(x, 2)` (round half to even at two decimal places),
used only for the `price` and `total` fields of a trade record. -/
def pyRound2 (q : ℚ) : ℚ :=
  let s := q * 100
  let f := ⌊s⌋
  let r := s - f
  let n : ℤ := if r < 1 / 2 then f else if 1 / 2 < r then f + 1 else if f % 2 = 0 then f else f + 1
  (n : ℚ) / 100

/-- The trade record appended by `execute_trade`; `now` models
`str(datetime.datetime.now())`. -/
def mkRec (now : String) (ticker : String) (action : Action) (quantity : ℤ)
    (price total : ℚ) (confidence : Confidence) (reason : String) : TradeRec :=
  { date := now, ticker := ticker, action := action, quantity := quantity
  , price := pyRound2 price, total := pyRound2 total
  , confidence := confidence, reason := reason }

/-- Final steps of the BUY branch (source lines 728-752): the
max-positions guardrail, then `if pf["cash"] >= cost` execute else skip
with insufficient funds.  `quantity`/`cost` are the possibly clamped
values. -/
def buyFinalize (cfg : Config) (decision : Proposal) (pf : Ledger) (price : ℚ)
    (now : String) (dry_run : Bool) (quantity : ℤ) (cost : ℚ) : Ledger × Outcome :=
  if dictFind pf.holdings decision.ticker = none ∧ cfg.MAX_POSITIONS ≤ pf.holdings.length then
    (pf, .skipped .maxPositionsReached)
  else if cost ≤ pf.cash then
    (if dry_run then pf else
      { cash := pf.cash - cost
      , holdings := dictSet pf.holdings decision.ticker
          (dictGet pf.holdings decision.ticker 0 + quantity)
      , cost_basis := dictSet pf.cost_basis decision.ticker
          (dictGet pf.cost_basis decision.ticker 0 + cost)
      , trades := pf.trades ++
          [mkRec now decision.ticker .BUY quantity price cost decision.confidence decision.reason] },
     .executed .BUY decision.ticker quantity price cost)
  else (pf, .skipped .insufficientCash)

/-- Max-position-size guardrail of the BUY branch (source lines 712-726):
when the existing position value plus the (current) cost would exceed
`total_value * MAX_POSITION_PCT`, either clamp the quantity to
`int(allowed / price)` or skip. -/
def buyPositionCheck (cfg : Config) (decision : Proposal) (pf : Ledger) (price : ℚ)
    (total_value : ℚ) (now : String) (dry_run : Bool) (quantity : ℤ) (cost : ℚ) :
    Ledger × Outcome :=
  let existing_value : ℚ := (dictGet pf.holdings decision.ticker 0 : ℤ) * price
  let max_position := total_value * cfg.MAX_POSITION_PCT
  if max_position < existing_value + cost then
    let allowed := max_position - existing_value
    if cfg.MIN_TRADE_VALUE ≤ allowed then
      let quantity' := pyInt (allowed / price)
      let cost' := price * quantity'
      if quantity' ≤ 0 then (pf, .skipped .positionLimitBreach)
      else buyFinalize cfg decision pf price now dry_run quantity' cost'
    else (pf, .skipped .positionLimitBreach)
  else buyFinalize cfg decision pf price now dry_run quantity cost

/-- Cash-reserve guardrail of the BUY branch (source lines 695-710): when
cash after the purchase would drop below `total_value *
MIN_CASH_RESERVE_PCT`, either clamp the quantity to
`int(available_cash / price)` or skip. -/
def buyReserveCheck (cfg : Config) (decision : Proposal) (pf : Ledger) (price : ℚ)
    (total_value : ℚ) (now : String) (dry_run : Bool) (quantity : ℤ) (cost : ℚ) :
    Ledger × Outcome :=
  let cash_after := pf.cash - cost
  let min_cash := total_value * cfg.MIN_CASH_RESERVE_PCT
  if cash_after < min_cash then
    let available_cash := pf.cash - min_cash
    if cfg.MIN_TRADE_VALUE ≤ available_cash then
      let quantity' := pyInt (available_cash / price)
      let cost' := price * quantity'
      if quantity' ≤ 0 then (pf, .skipped .cashReserveBreach)
      else buyPositionCheck cfg decision pf price total_value now dry_run quantity' cost'
    else (pf, .skipped .cashReserveBreach)
  else buyPositionCheck cfg decision pf price total_value now dry_run quantity cost

/-- The BUY branch of `execute_trade` (source lines 687-752), starting
with the minimum-trade-size guardrail. -/
def buyBranch (cfg : Config) (decision : Proposal) (pf : Ledger) (price : ℚ)
    (total_value : ℚ) (now : String) (dry_run : Bool) : Ledger × Outcome :=
  let cost := price * decision.quantity
  if cost < cfg.MIN_TRADE_VALUE then (pf, .skipped .belowMinTradeSize)
  else buyReserveCheck cfg decision pf price total_value now dry_run decision.quantity cost

/-- The SELL branch of `execute_trade` (source lines 754-780): sell only
when `owned >= quantity > 0`; a full liquidation removes the ticker from
`holdings` and `cost_basis`, otherwise `cost_basis` is scaled by
`1 - quantity/owned`. -/
def sellBranch (decision : Proposal) (pf : Ledger) (price : ℚ) (now : String)
    (dry_run : Bool) : Ledger × Outcome :=
  let owned := dictGet pf.holdings decision.ticker 0
  if decision.quantity ≤ owned ∧ 0 < decision.quantity then
    let proceeds := price * decision.quantity
    let rec_ := mkRec now decision.ticker .SELL decision.quantity price proceeds
      decision.confidence decision.reason
    let pf' :=
      if dry_run then pf
      else if owned - decision.quantity = 0 then
        { cash := pf.cash + proceeds
        , holdings := dictErase pf.holdings decision.ticker
        , cost_basis := dictErase pf.cost_basis decision.ticker
        , trades := pf.trades ++ [rec_] }
      else
        { cash := pf.cash + proceeds
        , holdings := dictSet pf.holdings decision.ticker (owned - decision.quantity)
        , cost_basis := dictSet pf.cost_basis decision.ticker
            (dictGet pf.cost_basis decision.ticker 0 *
              (1 - (decision.quantity : ℚ) / (owned : ℚ)))
        , trades := pf.trades ++ [rec_] }
    (pf', .executed .SELL decision.ticker decision.quantity price proceeds)
  else (pf, .skipped .insufficientShares)

/-- `execute_trade` (source lines 667-783).  Low-confidence proposals are
skipped first; a missing price, or a price of exactly `0` (falsy in
Python: `if not price`), skips the proposal; then the action branches. -/
def execute_trade (cfg : Config) (decision : Proposal) (pf : Ledger)
    (current_prices : List (String × ℚ)) (total_value : ℚ) (now : String)
    (dry_run : Bool) : Ledger × Outcome :=
  if decision.confidence = .low then (pf, .skipped .lowConfidence)
  else
    match dictFind current_prices decision.ticker with
    | none => (pf, .skipped .priceUnavailable)
    | some price =>
      if price = 0 then (pf, .skipped .priceUnavailable)
      else
        match decision.action with
        | .BUY => buyBranch cfg decision pf price total_value now dry_run
        | .SELL => sellBranch decision pf price now dry_run
        | .HOLD => (pf, .held)

/-- Reason string of a stop-loss forced sell.  The source interpolates the
loss percentage and average cost into the string; the numeric
interpolation is abstracted away. -/
def stopLossReason : String := "STOP-LOSS: cutting losses"

/-- Reason string of a take-profit forced sell (numeric interpolation
abstracted away, as for `stopLossReason`). -/
def takeProfitReason : String := "TAKE-PROFIT: locking gains"

/-- The forced-sell proposal for one `(ticker, shares)` holdings entry, or
`none` (the `continue` cases of the loop in `enforce_risk_rules`, source
lines 790-825): skip if the price is missing or falsy or `shares == 0` or
the average cost is `0`; otherwise a stop-loss full sell when
`pnl_pct <= STOP_LOSS_PCT`, else a take-profit half sell when
`pnl_pct >= TAKE_PROFIT_PCT`. -/
def riskProposal (cfg : Config) (cost_basis : List (String × ℚ))
    (current_prices : List (String × ℚ)) (entry : String × ℤ) : Option Proposal :=
  match dictFind current_prices entry.1 with
  | none => none
  | some price =>
    if price = 0 then none
    else if entry.2 = 0 then none
    else
      let cb := dictGet cost_basis entry.1 0
      let avg_cost : ℚ := if 0 < entry.2 then cb / (entry.2 : ℚ) else 0
      if avg_cost = 0 then none
      else
        let pnl_pct := (price - avg_cost) / avg_cost
        if pnl_pct ≤ cfg.STOP_LOSS_PCT then
          some { ticker := entry.1, action := .SELL, quantity := entry.2
               , confidence := .high, reason := stopLossReason }
        else if cfg.TAKE_PROFIT_PCT ≤ pnl_pct then
          some { ticker := entry.1, action := .SELL, quantity := max 1 (Int.fdiv entry.2 2)
               , confidence := .high, reason := takeProfitReason }
        else none

/-- `enforce_risk_rules` (source lines 785-827): sweep all holdings and
collect the forced sells, in holdings order. -/
def enforce_risk_rules (cfg : Config) (pf : Ledger)
    (current_prices : List (String × ℚ)) : List Proposal :=
  pf.holdings.filterMap (riskProposal cfg pf.cost_basis current_prices)

/-- The set of tickers force-sold this cycle (source line 927); every
forced trade emitted by `enforce_risk_rules` is a SELL. -/
def forcedSellTickers (forced_trades : List Proposal) : List String :=
  (forced_trades.filter (fun ft => ft.action = .SELL)).map Proposal.ticker

/-- Phase 5 of `main` (source lines 924-930): execute each external
decision unless its action is not BUY and its ticker was already
force-sold this cycle (`if d.get("action") == "BUY" or d["ticker"] not in
forced_tickers`). -/
def executionPhase (cfg : Config) (forced_trades : List Proposal)
    (decisions : List Proposal) (pf : Ledger) (current_prices : List (String × ℚ))
    (total_value : ℚ) (now : String) (dry_run : Bool) : Ledger :=
  decisions.foldl
    (fun acc d =>
      if d.action = .BUY ∨ d.ticker ∉ forcedSellTickers forced_trades then
        (execute_trade cfg d acc current_prices total_value now dry_run).1
      else acc)
    pf

/-- One `execute_trade` invocation in a sequence: its proposal together
with the ambient inputs (price map, total portfolio value, clock) of that
invocation. -/
structure TradeStep where
  decision : Proposal
  prices : List (String × ℚ)
  total_value : ℚ
  now : String

/-- Run a sequence of (non-dry-run) `execute_trade` invocations against a
ledger, threading the mutated ledger through. -/
def runTrades (cfg : Config) (steps : List TradeStep) (pf : Ledger) : Ledger :=
  steps.foldl
    (fun acc s => (execute_trade cfg s.decision acc s.prices s.total_value s.now false).1)
    pf

/-- The ledger invariant of the spec: non-negative cash and strictly
positive share counts for every holdings entry. -/
def GoodLedger (pf : Ledger) : Prop :=
  0 ≤ pf.cash ∧ ∀ e ∈ pf.holdings, 0 < e.2

/-- Well-formedness of a price map: market prices are never negative
(`fetch_detailed_data` only ever produces positive rounded prices). -/
def GoodPrices (ps : List (String × ℚ)) : Prop :=
  ∀ e ∈ ps, 0 ≤ e.2

/-- A trade record with its `date` field blanked, for comparing ledgers
up to the wall-clock stamp. -/
def stripDate (r : TradeRec) : TradeRec :=
  { r with date := "" }

/-- A ledger with all trade-record dates blanked. -/
def stripLedger (pf : Ledger) : Ledger :=
  { pf with trades := pf.trades.map stripDate }

/-! ### Association-list lemmas -/

theorem dictFind_mem {α : Type} {m : List (String × α)} {k : String} {v : α}
    (h : dictFind m k = some v) : (k, v) ∈ m := by
  induction m with
  | nil => simp [dictFind] at h
  | cons e rest ih =>
    obtain ⟨k', v'⟩ := e
    rw [dictFind] at h
    split at h
    · next heq =>
      injection h with h
      subst heq
      subst h
      exact List.mem_cons_self _ _
    · exact List.mem_cons_of_mem _ (ih h)

theorem dictFind_dictErase {α : Type} (m : List (String × α)) (k : String) :
    dictFind (dictErase m k) k = none := by
  induction m with
  | nil => rfl
  | cons e rest ih =>
    obtain ⟨k', v'⟩ := e
    rw [dictErase]
    split
    · exact ih
    · next hne =>
      rw [dictFind, if_neg hne]
      exact ih

theorem mem_dictErase {α : Type} {m : List (String × α)} {k : String} {e : String × α}
    (h : e ∈ dictErase m k) : e ∈ m := by
  induction m with
  | nil => simp [dictErase] at h
  | cons f rest ih =>
    obtain ⟨k', v'⟩ := f
    rw [dictErase] at h
    split at h
    · exact List.mem_cons_of_mem _ (ih h)
    · rcases List.mem_cons.1 h with h | h
      · exact h ▸ List.mem_cons_self _ _
      · exact List.mem_cons_of_mem _ (ih h)

theorem mem_dictSet {α : Type} {m : List (String × α)} {k : String} {v : α} {e : String × α}
    (h : e ∈ dictSet m k v) : e = (k, v) ∨ e ∈ m := by
  induction m with
  | nil => simpa [dictSet] using h
  | cons f rest ih =>
    obtain ⟨k', v'⟩ := f
    rw [dictSet] at h
    split at h
    · rcases List.mem_cons.1 h with h | h
      · exact Or.inl h
      · exact Or.inr (List.mem_cons_of_mem _ h)
    · rcases List.mem_cons.1 h with h | h
      · exact Or.inr (h ▸ List.mem_cons_self _ _)
      · rcases ih h with h | h
        · exact Or.inl h
        · exact Or.inr (List.mem_cons_of_mem _ h)

theorem dictFind_dictSet_self {α : Type} (m : List (String × α)) (k : String) (v : α) :
    dictFind (dictSet m k v) k = some v := by
  induction m with
  | nil => simp [dictSet, dictFind]
  | cons f rest ih =>
    obtain ⟨k', v'⟩ := f
    rw [dictSet]
    split
    · rw [dictFind, if_pos rfl]
    · next hne =>
      rw [dictFind, if_neg hne]
      exact ih

theorem dictGet_dictSet_self {α : Type} (m : List (String × α)) (k : String) (v dflt : α) :
    dictGet (dictSet m k v) k dflt = v := by
  rw [dictGet, dictFind_dictSet_self]
  rfl

theorem nodupKeys_eq {α : Type} {l : List (String × α)} (hnd : (l.map Prod.fst).Nodup)
    {e f : String × α} (he : e ∈ l) (hf : f ∈ l) (hk : e.1 = f.1) : e = f := by
  induction l with
  | nil => cases he
  | cons a t ih =>
    rw [List.map_cons, List.nodup_cons] at hnd
    rcases List.mem_cons.1 he with he' | he' <;> rcases List.mem_cons.1 hf with hf' | hf'
    · rw [he', hf']
    · exfalso
      apply hnd.1
      rw [← he', hk]
      exact List.mem_map_of_mem Prod.fst hf'
    · exfalso
      apply hnd.1
      rw [← hf', ← hk]
      exact List.mem_map_of_mem Prod.fst he'
    · exact ih hnd.2 he' hf'

/-! ### Truncation lemmas -/

theorem pyInt_eq_floor {q : ℚ} (h : 0 ≤ q) : pyInt q = ⌊q⌋ := by
  rw [pyInt, if_pos h]

theorem pyInt_cast_le {q : ℚ} (h : 0 ≤ q) : (pyInt q : ℚ) ≤ q := by
  rw [pyInt_eq_floor h]
  exact Int.floor_le q

theorem pyInt_lt_of_lt {q : ℚ} {n : ℤ} (h : 0 ≤ q) (h2 : q < (n : ℚ)) : pyInt q < n := by
  rw [pyInt_eq_floor h]
  exact Int.floor_lt.2 h2

theorem clamp_cost_le {a p : ℚ} (hp : 0 < p) (ha : 0 ≤ a) :
    p * (pyInt (a / p) : ℚ) ≤ a := by
  have h1 : (pyInt (a / p) : ℚ) ≤ a / p := pyInt_cast_le (div_nonneg ha hp.le)
  calc p * (pyInt (a / p) : ℚ) ≤ p * (a / p) := mul_le_mul_of_nonneg_left h1 hp.le
  _ = a := by field_simp

/-! ### Ledger-invariant preservation (claim C1 machinery) -/

theorem goodLedger_get_nonneg {pf : Ledger} (h : GoodLedger pf) (k : String) :
    0 ≤ dictGet pf.holdings k 0 := by
  rw [dictGet]
  cases hf : dictFind pf.holdings k with
  | none => simp
  | some v => simpa using (h.2 _ (dictFind_mem hf)).le

theorem buyFinalize_good {cfg : Config} {d : Proposal} {pf : Ledger} {price : ℚ}
    {now : String} {dry_run : Bool} {q : ℤ} {c : ℚ}
    (hpf : GoodLedger pf) (hq : 0 < q) :
    GoodLedger (buyFinalize cfg d pf price now dry_run q c).1 := by
  rw [buyFinalize]
  split
  · exact hpf
  split
  · next hc =>
    show GoodLedger (if dry_run then pf else _)
    split
    · exact hpf
    refine ⟨by simpa using sub_nonneg.2 hc, ?_⟩
    intro e he
    rcases mem_dictSet he with he | he
    · rw [he]
      have := goodLedger_get_nonneg hpf d.ticker
      simpa using add_pos_of_nonneg_of_pos this hq
    · exact hpf.2 _ he
  · exact hpf

theorem buyPositionCheck_good {cfg : Config} {d : Proposal} {pf : Ledger} {price : ℚ}
    {total_value : ℚ} {now : String} {dry_run : Bool} {q : ℤ} {c : ℚ}
    (hpf : GoodLedger pf) (hq : 0 < q) :
    GoodLedger (buyPositionCheck cfg d pf price total_value now dry_run q c).1 := by
  rw [buyPositionCheck]
  split
  · dsimp only
    split
    · split
      · exact hpf
      · next h => exact buyFinalize_good hpf (lt_of_not_le h)
    · exact hpf
  · exact buyFinalize_good hpf hq

theorem buyReserveCheck_good {cfg : Config} {d : Proposal} {pf : Ledger} {price : ℚ}
    {total_value : ℚ} {now : String} {dry_run : Bool} {q : ℤ} {c : ℚ}
    (hpf : GoodLedger pf) (hq : 0 < q) :
    GoodLedger (buyReserveCheck cfg d pf price total_value now dry_run q c).1 := by
  rw [buyReserveCheck]
  split
  · dsimp only
    split
    · split
      · exact hpf
      · next h => exact buyPositionCheck_good hpf (lt_of_not_le h)
    · exact hpf
  · exact buyPositionCheck_good hpf hq

theorem buyBranch_good {cfg : Config} {d : Proposal} {pf : Ledger} {price : ℚ}
    {total_value : ℚ} {now : String} {dry_run : Bool}
    (hpf : GoodLedger pf) (hp : 0 < price) (hmtv : 0 < cfg.MIN_TRADE_VALUE) :
    GoodLedger (buyBranch cfg d pf price total_value now dry_run).1 := by
  rw [buyBranch]
  split
  · exact hpf
  · next h =>
    have hc : 0 < price * (d.quantity : ℚ) := lt_of_lt_of_le hmtv (not_lt.1 h)
    have hq : 0 < d.quantity := by
      by_contra hq
      have : price * (d.quantity : ℚ) ≤ 0 :=
        mul_nonpos_of_nonneg_of_nonpos hp.le (by exact_mod_cast not_lt.1 hq)
      exact absurd hc (not_lt.2 this)
    exact buyReserveCheck_good hpf hq

theorem sellBranch_good {d : Proposal} {pf : Ledger} {price : ℚ} {now : String}
    {dry_run : Bool} (hpf : GoodLedger pf) (hp : 0 < price) :
    GoodLedger (sellBranch d pf price now dry_run).1 := by
  rw [sellBranch]
  split
  · next hg =>
    show GoodLedger (if dry_run then pf else _)
    split
    · exact hpf
    have hcash : 0 ≤ pf.cash + price * (d.quantity : ℚ) :=
      add_nonneg hpf.1 (mul_nonneg hp.le (by exact_mod_cast hg.2.le))
    split
    · refine ⟨hcash, ?_⟩
      intro e he
      exact hpf.2 _ (mem_dictErase he)
    · next hnz =>
      refine ⟨hcash, ?_⟩
      intro e he
      rcases mem_dictSet he with he | he
      · rw [he]
        have h0 : 0 ≤ dictGet pf.holdings d.ticker 0 - d.quantity := sub_nonneg.2 hg.1
        exact lt_of_le_of_ne h0 (fun h => hnz h.symm)
      · exact hpf.2 _ he
  · exact hpf

theorem execute_trade_good {cfg : Config} {d : Proposal} {pf : Ledger}
    {current_prices : List (String × ℚ)} {total_value : ℚ} {now : String} {dry_run : Bool}
    (hpf : GoodLedger pf) (hps : GoodPrices current_prices)
    (hmtv : 0 < cfg.MIN_TRADE_VALUE) :
    GoodLedger (execute_trade cfg d pf current_prices total_value now dry_run).1 := by
  rw [execute_trade]
  split
  · exact hpf
  cases hf : dictFind current_prices d.ticker with
  | none => exact hpf
  | some price =>
    have hnn : 0 ≤ price := hps _ (dictFind_mem hf)
    show GoodLedger (if price = 0 then (pf, Outcome.skipped .priceUnavailable) else _).1
    split
    · exact hpf
    · next hz =>
      have hp : 0 < price := lt_of_le_of_ne hnn (fun h => hz h.symm)
      cases d.action with
      | BUY => exact buyBranch_good hpf hp hmtv
      | SELL => exact sellBranch_good hpf hp
      | HOLD => exact hpf

/-! ### Claim C1 -/

/-- Claim C1: for every sequence of proposals executed via `execute_trade`
(with the program constants of `swiss_trader.py` and well-formed,
non-negative market prices), starting from a ledger with `cash ≥ 0` and
every holdings count `> 0`, after each execution `cash` remains `≥ 0` and
no `holdings[ticker]` is ever negative (indeed every held count stays
strictly positive).  Instantiating `steps` at every prefix of a sequence
gives the invariant after each intermediate execution. -/
theorem C1_ledger_invariant (steps : List TradeStep) (pf : Ledger)
    (h0 : GoodLedger pf) (hps : ∀ s ∈ steps, GoodPrices s.prices) :
    GoodLedger (runTrades defaultConfig steps pf) := by
  induction steps generalizing pf with
  | nil => simpa [runTrades] using h0
  | cons s rest ih =>
    have hstep : runTrades defaultConfig (s :: rest) pf =
        runTrades defaultConfig rest
          ((execute_trade defaultConfig s.decision pf s.prices s.total_value s.now false).1) := rfl
    rw [hstep]
    refine ih _ ?_ (fun t ht => hps t (List.mem_cons_of_mem _ ht))
    exact execute_trade_good h0 (hps s (List.mem_cons_self _ _)) (by norm_num [defaultConfig])

/-- Witness for C1: a concrete BUY followed by a concrete SELL, starting
from $10000 cash; the invariant hypotheses hold and the theorem applies. -/
theorem C1_ledger_invariant_witness :
    GoodLedger (runTrades defaultConfig
      [ { decision := { ticker := "NVDA", action := .BUY, quantity := 20,
                        confidence := .high, reason := "w" }
        , prices := [("NVDA", 50)], total_value := 10000, now := "t1" }
      , { decision := { ticker := "NVDA", action := .SELL, quantity := 5,
                        confidence := .high, reason := "w" }
        , prices := [("NVDA", 55)], total_value := 10100, now := "t2" } ]
      { cash := 10000, holdings := [], cost_basis := [], trades := [] }) := by
  apply C1_ledger_invariant
  · constructor
    · norm_num
    · intro e he
      simp at he
  · intro s hs
    fin_cases hs <;> intro e he <;> fin_cases he <;> norm_num

/-! ### Claim C10 -/

/-- Claim C10: a proposal whose ticker maps to a price of exactly `0`
(falsy in Python) is treated exactly as if the ticker were absent from
`current_prices`: same result as with the ticker erased, the ledger is
unchanged, and the outcome is a skip. -/
theorem C10_zero_price_unavailable (cfg : Config) (d : Proposal) (pf : Ledger)
    (current_prices : List (String × ℚ)) (total_value : ℚ) (now : String) (dry_run : Bool)
    (h : dictFind current_prices d.ticker = some 0) :
    execute_trade cfg d pf current_prices total_value now dry_run =
      execute_trade cfg d pf (dictErase current_prices d.ticker) total_value now dry_run ∧
    (execute_trade cfg d pf current_prices total_value now dry_run).1 = pf ∧
    ∃ r, (execute_trade cfg d pf current_prices total_value now dry_run).2 =
      Outcome.skipped r := by
  rw [execute_trade, execute_trade]
  split
  · exact ⟨rfl, rfl, _, rfl⟩
  · rw [h, dictFind_dictErase]
    simp

/-- Witness for C10: a BUY whose ticker is priced at exactly `0` leaves
the ledger untouched. -/
theorem C10_zero_price_unavailable_witness :
    dictFind [("AAPL", (0:ℚ))] "AAPL" = some 0 ∧
    (execute_trade defaultConfig
      { ticker := "AAPL", action := .BUY, quantity := 10, confidence := .high, reason := "w" }
      { cash := 1000, holdings := [], cost_basis := [], trades := [] }
      [("AAPL", 0)] 1000 "t" false).1 =
      { cash := 1000, holdings := [], cost_basis := [], trades := [] } :=
  ⟨by norm_num +decide [dictFind],
   (C10_zero_price_unavailable _ _ _ _ _ _ _ (by norm_num +decide [dictFind])).2.1⟩

/-! ### Claim C7 -/

/-- Counterexample to claim C7: the execution-phase filter
`if d.get("action") == "BUY" or d["ticker"] not in forced_tickers` lets a
BUY recommendation through even when its ticker was force-sold this
cycle; here the force-sold ticker AAPL is bought right back (20 shares
land in the ledger), so it is not the case that every recommendation on a
force-sold ticker is skipped for every action. -/
theorem C7_counterexample :
    "AAPL" ∈ forcedSellTickers
      [{ ticker := "AAPL", action := .SELL, quantity := 10, confidence := .high, reason := "fs" }] ∧
    dictGet (executionPhase defaultConfig
        [{ ticker := "AAPL", action := .SELL, quantity := 10, confidence := .high, reason := "fs" }]
        [{ ticker := "AAPL", action := .BUY, quantity := 20, confidence := .high, reason := "b" }]
        { cash := 10000, holdings := [], cost_basis := [], trades := [] }
        [("AAPL", 50)] 10000 "t" false).holdings "AAPL" 0 = 20 := by
  constructor
  · decide
  · norm_num +decide [executionPhase, forcedSellTickers, execute_trade, buyBranch,
      buyReserveCheck, buyPositionCheck, buyFinalize, dictFind, dictGet, dictSet,
      pyInt, defaultConfig, mkRec, pyRound2]

/-- Claim C7 (amended): an external recommendation whose ticker was
force-sold this cycle is skipped by the execution phase whenever its
action is not BUY (SELL and HOLD are suppressed; a BUY recommendation on
a force-sold ticker is executed, see the counterexample). -/
theorem C7_forced_ticker_skip (cfg : Config) (forced_trades : List Proposal) (d : Proposal)
    (pf : Ledger) (current_prices : List (String × ℚ)) (total_value : ℚ) (now : String)
    (dry_run : Bool) (ha : d.action ≠ .BUY) (hm : d.ticker ∈ forcedSellTickers forced_trades) :
    executionPhase cfg forced_trades [d] pf current_prices total_value now dry_run = pf := by
  rw [executionPhase, List.foldl_cons, List.foldl_nil, if_neg]
  rintro (h | h)
  · exact ha h
  · exact h hm

/-- Witness for C7 (amended): a SELL recommendation on a force-sold
ticker leaves the ledger untouched. -/
theorem C7_forced_ticker_skip_witness :
    ({ ticker := "TSLA", action := .SELL, quantity := 3, confidence := .high, reason := "s" }
        : Proposal).action ≠ .BUY ∧
    executionPhase defaultConfig
      [{ ticker := "TSLA", action := .SELL, quantity := 9, confidence := .high, reason := "fs" }]
      [{ ticker := "TSLA", action := .SELL, quantity := 3, confidence := .high, reason := "s" }]
      { cash := 5, holdings := [("TSLA", 9)], cost_basis := [("TSLA", 90)], trades := [] }
      [("TSLA", 10)] 95 "t" false =
      { cash := 5, holdings := [("TSLA", 9)], cost_basis := [("TSLA", 90)], trades := [] } :=
  ⟨by decide, C7_forced_ticker_skip _ _ _ _ _ _ _ _ (by decide) (by decide)⟩

/-! ### Claim C5 -/

/-- Counterexample to claim C5: a low-confidence SELL of more shares than
held (5 requested, 2 held) is skipped with reason LowConfidence, not
InsufficientShares, because the confidence filter runs before the share
check. -/
theorem C5_counterexample :
    (2:ℤ) < 5 ∧
    (execute_trade defaultConfig
      { ticker := "AAPL", action := .SELL, quantity := 5, confidence := .low, reason := "c" }
      { cash := 0, holdings := [("AAPL", 2)], cost_basis := [("AAPL", 10)], trades := [] }
      [("AAPL", 10)] 100 "t" false).2 = Outcome.skipped .lowConfidence ∧
    (execute_trade defaultConfig
      { ticker := "AAPL", action := .SELL, quantity := 5, confidence := .low, reason := "c" }
      { cash := 0, holdings := [("AAPL", 2)], cost_basis := [("AAPL", 10)], trades := [] }
      [("AAPL", 10)] 100 "t" false).2 ≠ Outcome.skipped .insufficientShares := by
  refine ⟨by decide, ?_, ?_⟩ <;> norm_num +decide [execute_trade]

/-- Claim C5 (amended): for every SELL proposal with non-low confidence
whose ticker has an available non-zero price: if the requested quantity
exceeds the held count or is ≤ 0, the outcome is Skipped with
InsufficientShares and the ledger is unchanged; and every SELL with
`0 < quantity ≤ held` executes — it is never blocked by the
position-size, cash-reserve, minimum-trade-size, or max-positions rules. -/
theorem C5_sell_guard (cfg : Config) (d : Proposal) (pf : Ledger)
    (current_prices : List (String × ℚ)) (total_value : ℚ) (now : String) (dry_run : Bool)
    (p : ℚ) (ha : d.action = .SELL) (hc : ¬ d.confidence = .low)
    (hf : dictFind current_prices d.ticker = some p) (hp : ¬ p = 0) :
    ((dictGet pf.holdings d.ticker 0 < d.quantity ∨ d.quantity ≤ 0) →
      execute_trade cfg d pf current_prices total_value now dry_run =
        (pf, Outcome.skipped .insufficientShares)) ∧
    ((0 < d.quantity ∧ d.quantity ≤ dictGet pf.holdings d.ticker 0) →
      (execute_trade cfg d pf current_prices total_value now dry_run).2 =
        Outcome.executed .SELL d.ticker d.quantity p (p * d.quantity)) := by
  rw [execute_trade, if_neg hc, hf]
  simp only [ha]
  rw [sellBranch]
  rw [if_neg hp]
  constructor
  · intro h
    rw [if_neg]
    rintro ⟨h1, h2⟩
    rcases h with h | h
    · exact absurd h1 (not_le.2 h)
    · exact absurd h2 (not_lt.2 h)
  · rintro ⟨h1, h2⟩
    rw [if_pos ⟨h2, h1⟩]

/-- Witness for C5 (amended): a high-confidence SELL of 5 shares with
only 2 held is skipped with InsufficientShares and leaves the ledger
unchanged. -/
theorem C5_sell_guard_witness :
    dictGet ({ cash := 0, holdings := [("AAPL", (2:ℤ))], cost_basis := [("AAPL", (10:ℚ))]
             , trades := [] } : Ledger).holdings "AAPL" 0 < 5 ∧
    execute_trade defaultConfig
      { ticker := "AAPL", action := .SELL, quantity := 5, confidence := .high, reason := "w" }
      { cash := 0, holdings := [("AAPL", 2)], cost_basis := [("AAPL", 10)], trades := [] }
      [("AAPL", 4)] 100 "t" false =
      ({ cash := 0, holdings := [("AAPL", 2)], cost_basis := [("AAPL", 10)], trades := [] },
        Outcome.skipped .insufficientShares) :=
  ⟨by norm_num +decide [dictGet, dictFind],
   (C5_sell_guard _ _ _ _ _ _ _ 4 rfl (by decide) (by norm_num +decide [dictFind])
      (by norm_num)).1 (Or.inl (by norm_num +decide [dictGet, dictFind]))⟩

/-! ### Claim C9 -/

theorem buyFinalize_clock (cfg : Config) (d : Proposal) (pf : Ledger) (price : ℚ)
    (now now' : String) (dry_run : Bool) (q : ℤ) (c : ℚ) :
    (buyFinalize cfg d pf price now dry_run q c).2 =
      (buyFinalize cfg d pf price now' dry_run q c).2 ∧
    stripLedger (buyFinalize cfg d pf price now dry_run q c).1 =
      stripLedger (buyFinalize cfg d pf price now' dry_run q c).1 := by
  rw [buyFinalize, buyFinalize]
  split
  · exact ⟨rfl, rfl⟩
  split
  · refine ⟨rfl, ?_⟩
    cases dry_run
    · simp [stripLedger, stripDate, mkRec]
    · rfl
  · exact ⟨rfl, rfl⟩

theorem buyPositionCheck_clock (cfg : Config) (d : Proposal) (pf : Ledger) (price : ℚ)
    (total_value : ℚ) (now now' : String) (dry_run : Bool) (q : ℤ) (c : ℚ) :
    (buyPositionCheck cfg d pf price total_value now dry_run q c).2 =
      (buyPositionCheck cfg d pf price total_value now' dry_run q c).2 ∧
    stripLedger (buyPositionCheck cfg d pf price total_value now dry_run q c).1 =
      stripLedger (buyPositionCheck cfg d pf price total_value now' dry_run q c).1 := by
  rw [buyPositionCheck, buyPositionCheck]
  split
  · dsimp only
    split
    · split
      · exact ⟨rfl, rfl⟩
      · exact buyFinalize_clock cfg d pf price now now' dry_run _ _
    · exact ⟨rfl, rfl⟩
  · exact buyFinalize_clock cfg d pf price now now' dry_run q c

theorem buyReserveCheck_clock (cfg : Config) (d : Proposal) (pf : Ledger) (price : ℚ)
    (total_value : ℚ) (now now' : String) (dry_run : Bool) (q : ℤ) (c : ℚ) :
    (buyReserveCheck cfg d pf price total_value now dry_run q c).2 =
      (buyReserveCheck cfg d pf price total_value now' dry_run q c).2 ∧
    stripLedger (buyReserveCheck cfg d pf price total_value now dry_run q c).1 =
      stripLedger (buyReserveCheck cfg d pf price total_value now' dry_run q c).1 := by
  rw [buyReserveCheck, buyReserveCheck]
  split
  · dsimp only
    split
    · split
      · exact ⟨rfl, rfl⟩
      · exact buyPositionCheck_clock cfg d pf price total_value now now' dry_run _ _
    · exact ⟨rfl, rfl⟩
  · exact buyPositionCheck_clock cfg d pf price total_value now now' dry_run q c

theorem sellBranch_clock (d : Proposal) (pf : Ledger) (price : ℚ) (now now' : String)
    (dry_run : Bool) :
    (sellBranch d pf price now dry_run).2 = (sellBranch d pf price now' dry_run).2 ∧
    stripLedger (sellBranch d pf price now dry_run).1 =
      stripLedger (sellBranch d pf price now' dry_run).1 := by
  rw [sellBranch, sellBranch]
  split
  · dsimp only
    refine ⟨rfl, ?_⟩
    cases dry_run
    · by_cases h : dictGet pf.holdings d.ticker 0 - d.quantity = 0
      · rw [if_pos h, if_pos h]
        simp [stripLedger, stripDate, mkRec]
      · rw [if_neg h, if_neg h]
        simp [stripLedger, stripDate, mkRec]
    · rfl
  · exact ⟨rfl, rfl⟩

theorem buyBranch_clock (cfg : Config) (d : Proposal) (pf : Ledger) (price : ℚ)
    (total_value : ℚ) (now now' : String) (dry_run : Bool) :
    (buyBranch cfg d pf price total_value now dry_run).2 =
      (buyBranch cfg d pf price total_value now' dry_run).2 ∧
    stripLedger (buyBranch cfg d pf price total_value now dry_run).1 =
      stripLedger (buyBranch cfg d pf price total_value now' dry_run).1 := by
  rw [buyBranch, buyBranch]
  split
  · exact ⟨rfl, rfl⟩
  · exact buyReserveCheck_clock cfg d pf price total_value now now' dry_run _ _

/-- Claim C9 (amended): `execute_trade` is deterministic in all its
explicit inputs, and the only hidden state influencing the result is the
wall clock stamped into the `date` field of the appended trade record:
two invocations on identical `(proposal, ledger, prices, total value)`
yield the same outcome and ledgers that agree after blanking trade-record
dates.  (The claim as stated is refuted by `C9_counterexample`: the raw
ledgers differ when the clock differs.) -/
theorem C9_determinism_up_to_clock (cfg : Config) (d : Proposal) (pf : Ledger)
    (current_prices : List (String × ℚ)) (total_value : ℚ) (now now' : String)
    (dry_run : Bool) :
    (execute_trade cfg d pf current_prices total_value now dry_run).2 =
      (execute_trade cfg d pf current_prices total_value now' dry_run).2 ∧
    stripLedger (execute_trade cfg d pf current_prices total_value now dry_run).1 =
      stripLedger (execute_trade cfg d pf current_prices total_value now' dry_run).1 := by
  rw [execute_trade, execute_trade]
  by_cases hconf : d.confidence = .low
  · rw [if_pos hconf, if_pos hconf]
    exact ⟨rfl, rfl⟩
  rw [if_neg hconf, if_neg hconf]
  cases dictFind current_prices d.ticker with
  | none => exact ⟨rfl, rfl⟩
  | some price =>
    dsimp only
    by_cases hz : price = 0
    · rw [if_pos hz, if_pos hz]
      exact ⟨rfl, rfl⟩
    rw [if_neg hz, if_neg hz]
    cases d.action with
    | BUY => exact buyBranch_clock cfg d pf price total_value now now' dry_run
    | SELL => exact sellBranch_clock d pf price now now' dry_run
    | HOLD => exact ⟨rfl, rfl⟩

/-- Counterexample to claim C9 as stated: identical proposal, ledger
snapshot, price and total portfolio value, but the two invocations read
different wall-clock values, and the resulting ledger states differ (the
appended trade record carries `str(datetime.datetime.now())`). -/
theorem C9_counterexample :
    (execute_trade defaultConfig
      { ticker := "AAPL", action := .SELL, quantity := 1, confidence := .high, reason := "r" }
      { cash := 100, holdings := [("AAPL", 1)], cost_basis := [("AAPL", 10)], trades := [] }
      [("AAPL", 5)] 105 "2024-01-01 10:00:00" false).1 ≠
    (execute_trade defaultConfig
      { ticker := "AAPL", action := .SELL, quantity := 1, confidence := .high, reason := "r" }
      { cash := 100, holdings := [("AAPL", 1)], cost_basis := [("AAPL", 10)], trades := [] }
      [("AAPL", 5)] 105 "2024-01-02 10:00:00" false).1 := by
  norm_num +decide [execute_trade, sellBranch, mkRec, pyRound2, dictFind, dictGet,
    dictErase, dictSet, defaultConfig]

/-! ### Claim C2 -/

theorem buyFinalize_c2 (cfg : Config) (d : Proposal) (pf : Ledger) (price : ℚ)
    (now : String) (dry_run : Bool) (q Q : ℤ) (c : ℚ)
    (hc : c ≤ pf.cash) (h0 : 0 ≤ pf.cash) (hq : q < Q) :
    (buyFinalize cfg d pf price now dry_run q c).2 ≠ Outcome.skipped .insufficientCash ∧
    0 ≤ (buyFinalize cfg d pf price now dry_run q c).1.cash ∧
    ∀ a t q' pr c', (buyFinalize cfg d pf price now dry_run q c).2 =
      Outcome.executed a t q' pr c' → c' ≤ pf.cash ∧ q' < Q := by
  rw [buyFinalize]
  split
  · refine ⟨by simp, h0, ?_⟩
    intro a t q' pr c' h
    simp at h
  try rw [if_pos hc]
  refine ⟨by simp, ?_, ?_⟩
  · cases dry_run
    · simpa using sub_nonneg.2 hc
    · exact h0
  · intro a t q' pr c' h
    injection h with h1 h2 h3 h4 h5
    subst h3
    subst h5
    exact ⟨hc, hq⟩

theorem buyPositionCheck_c2 (cfg : Config) (d : Proposal) (pf : Ledger) (price : ℚ)
    (total_value : ℚ) (now : String) (dry_run : Bool) (q Q : ℤ) (c : ℚ)
    (hp : 0 < price) (h0 : 0 ≤ pf.cash) (hc : c ≤ pf.cash)
    (hcQ : pf.cash < price * (Q : ℚ)) (hq : q < Q) (hmtv : 0 ≤ cfg.MIN_TRADE_VALUE) :
    (buyPositionCheck cfg d pf price total_value now dry_run q c).2 ≠
      Outcome.skipped .insufficientCash ∧
    0 ≤ (buyPositionCheck cfg d pf price total_value now dry_run q c).1.cash ∧
    ∀ a t q' pr c', (buyPositionCheck cfg d pf price total_value now dry_run q c).2 =
      Outcome.executed a t q' pr c' → c' ≤ pf.cash ∧ q' < Q := by
  rw [buyPositionCheck]
  dsimp only
  split
  · next hover =>
    split
    · next hallow =>
      split
      · refine ⟨by simp, h0, ?_⟩
        intro a t q' pr c' h
        simp at h
      · have hall0 : 0 ≤ total_value * cfg.MAX_POSITION_PCT -
            ((dictGet pf.holdings d.ticker 0 : ℤ) : ℚ) * price := le_trans hmtv hallow
        have hcost2 : price * ((pyInt ((total_value * cfg.MAX_POSITION_PCT -
            ((dictGet pf.holdings d.ticker 0 : ℤ) : ℚ) * price) / price)) : ℚ) ≤
            total_value * cfg.MAX_POSITION_PCT -
            ((dictGet pf.holdings d.ticker 0 : ℤ) : ℚ) * price := clamp_cost_le hp hall0
        have hc2 : price * ((pyInt ((total_value * cfg.MAX_POSITION_PCT -
            ((dictGet pf.holdings d.ticker 0 : ℤ) : ℚ) * price) / price)) : ℚ) ≤ pf.cash := by
          linarith
        have hq2Q : pyInt ((total_value * cfg.MAX_POSITION_PCT -
            ((dictGet pf.holdings d.ticker 0 : ℤ) : ℚ) * price) / price) < Q := by
          have h1 : price * ((pyInt ((total_value * cfg.MAX_POSITION_PCT -
              ((dictGet pf.holdings d.ticker 0 : ℤ) : ℚ) * price) / price)) : ℚ) <
              price * (Q : ℚ) := by linarith
          have h2 := (mul_lt_mul_left hp).1 h1
          exact_mod_cast h2
        exact buyFinalize_c2 cfg d pf price now dry_run _ Q _ hc2 h0 hq2Q
    · refine ⟨by simp, h0, ?_⟩
      intro a t q' pr c' h
      simp at h
  · exact buyFinalize_c2 cfg d pf price now dry_run q Q c hc h0 hq

theorem buyReserveCheck_c2 (cfg : Config) (d : Proposal) (pf : Ledger) (price : ℚ)
    (total_value : ℚ) (now : String) (dry_run : Bool) (Q : ℤ)
    (hp : 0 < price) (h0 : 0 ≤ pf.cash) (htv : 0 ≤ total_value)
    (hpct : 0 ≤ cfg.MIN_CASH_RESERVE_PCT) (hmtv : 0 ≤ cfg.MIN_TRADE_VALUE)
    (hcash : pf.cash < price * (Q : ℚ)) :
    (buyReserveCheck cfg d pf price total_value now dry_run Q (price * (Q : ℚ))).2 ≠
      Outcome.skipped .insufficientCash ∧
    0 ≤ (buyReserveCheck cfg d pf price total_value now dry_run Q (price * (Q : ℚ))).1.cash ∧
    ∀ a t q' pr c', (buyReserveCheck cfg d pf price total_value now dry_run Q
      (price * (Q : ℚ))).2 = Outcome.executed a t q' pr c' → c' ≤ pf.cash ∧ q' < Q := by
  rw [buyReserveCheck]
  dsimp only
  have hmc : 0 ≤ total_value * cfg.MIN_CASH_RESERVE_PCT := mul_nonneg htv hpct
  rw [if_pos (show pf.cash - price * (Q : ℚ) < total_value * cfg.MIN_CASH_RESERVE_PCT by
    linarith)]
  split
  · next hav =>
    split
    · refine ⟨by simp, h0, ?_⟩
      intro a t q' pr c' h
      simp at h
    · have hav0 : 0 ≤ pf.cash - total_value * cfg.MIN_CASH_RESERVE_PCT := le_trans hmtv hav
      have hcost1 : price * ((pyInt ((pf.cash - total_value * cfg.MIN_CASH_RESERVE_PCT) /
          price)) : ℚ) ≤ pf.cash - total_value * cfg.MIN_CASH_RESERVE_PCT :=
        clamp_cost_le hp hav0
      have hc1 : price * ((pyInt ((pf.cash - total_value * cfg.MIN_CASH_RESERVE_PCT) /
          price)) : ℚ) ≤ pf.cash := by linarith
      have hq1Q : pyInt ((pf.cash - total_value * cfg.MIN_CASH_RESERVE_PCT) / price) < Q := by
        have h1 : price * ((pyInt ((pf.cash - total_value * cfg.MIN_CASH_RESERVE_PCT) /
            price)) : ℚ) < price * (Q : ℚ) := by linarith
        have h2 := (mul_lt_mul_left hp).1 h1
        exact_mod_cast h2
      exact buyPositionCheck_c2 cfg d pf price total_value now dry_run _ Q _ hp h0 hc1
        hcash hq1Q hmtv
  · refine ⟨by simp, h0, ?_⟩
    intro a t q' pr c' h
    simp at h

/-- Claim C2 (amended): a BUY whose proposed cost `quantity * price`
exceeds the ledger cash (with a positive price, non-negative cash, and
non-negative total portfolio value) is never executed at its proposed
quantity and never produces the InsufficientCash skip: the guardrails
either skip it with another reason (low confidence, minimum trade size,
cash-reserve breach, position-limit breach, max positions) or clamp the
quantity strictly below the proposed one with an executed cost that never
exceeds the available cash — cash stays non-negative in every case.  (The
claim as stated — always Skipped with InsufficientCash — is refuted by
`C2_counterexample`, where the cash-reserve guardrail clamps the
over-sized BUY down and executes it.) -/
theorem C2_buy_exceeding_cash (d : Proposal) (pf : Ledger)
    (current_prices : List (String × ℚ)) (total_value : ℚ) (now : String) (dry_run : Bool)
    (p : ℚ) (ha : d.action = .BUY) (hf : dictFind current_prices d.ticker = some p)
    (hp : 0 < p) (h0 : 0 ≤ pf.cash) (htv : 0 ≤ total_value)
    (hcost : pf.cash < p * (d.quantity : ℚ)) :
    (execute_trade defaultConfig d pf current_prices total_value now dry_run).2 ≠
      Outcome.skipped .insufficientCash ∧
    0 ≤ (execute_trade defaultConfig d pf current_prices total_value now dry_run).1.cash ∧
    ∀ a t q pr c, (execute_trade defaultConfig d pf current_prices total_value now
      dry_run).2 = Outcome.executed a t q pr c → c ≤ pf.cash ∧ q < d.quantity := by
  rw [execute_trade]
  by_cases hconf : d.confidence = .low
  · rw [if_pos hconf]
    refine ⟨by simp, h0, ?_⟩
    intro a t q pr c h
    simp at h
  rw [if_neg hconf, hf]
  dsimp only
  rw [if_neg (show ¬ p = 0 by intro h; rw [h] at hp; exact lt_irrefl 0 hp)]
  rw [ha]
  dsimp only
  rw [buyBranch]
  try dsimp only
  by_cases hmin : p * (d.quantity : ℚ) < defaultConfig.MIN_TRADE_VALUE
  · rw [if_pos hmin]
    refine ⟨by simp, h0, ?_⟩
    intro a t q pr c h
    simp at h
  · rw [if_neg hmin]
    exact buyReserveCheck_c2 defaultConfig d pf p total_value now dry_run d.quantity hp h0
      htv (by norm_num [defaultConfig]) (by norm_num [defaultConfig]) hcost

/-- Counterexample to claim C2 as stated: a BUY of 300 shares at $50
costs $15000 > $10000 cash, yet the outcome is not an InsufficientCash
skip — the cash-reserve guardrail clamps the order to 170 shares and the
position-limit guardrail to 20 shares ($1000), which is then executed. -/
theorem C2_counterexample :
    (10000 : ℚ) < 50 * 300 ∧
    (execute_trade defaultConfig
      { ticker := "NVDA", action := .BUY, quantity := 300, confidence := .high, reason := "c" }
      { cash := 10000, holdings := [], cost_basis := [], trades := [] }
      [("NVDA", 50)] 10000 "t" false).2 = Outcome.executed .BUY "NVDA" 20 50 1000 := by
  constructor
  · norm_num
  · norm_num +decide [execute_trade, buyBranch, buyReserveCheck, buyPositionCheck,
      buyFinalize, dictFind, dictGet, dictSet, pyInt, defaultConfig, mkRec, pyRound2]

/-- Witness for C2 (amended), at the inputs of the counterexample: the
hypotheses hold and the outcome is not an InsufficientCash skip. -/
theorem C2_buy_exceeding_cash_witness :
    (0 : ℚ) < 50 ∧
    (execute_trade defaultConfig
      { ticker := "NVDA", action := .BUY, quantity := 300, confidence := .high, reason := "c" }
      { cash := 10000, holdings := [], cost_basis := [], trades := [] }
      [("NVDA", 50)] 10000 "t" false).2 ≠ Outcome.skipped .insufficientCash :=
  ⟨by norm_num,
   (C2_buy_exceeding_cash _ _ _ _ _ _ 50 rfl (by norm_num +decide [dictFind]) (by norm_num)
     (by norm_num) (by norm_num) (by norm_num)).1⟩

/-! ### Claims C3 and C4 -/

theorem buyFinalize_ne_cashReserve (cfg : Config) (d : Proposal) (pf : Ledger) (price : ℚ)
    (now : String) (dry_run : Bool) (q : ℤ) (c : ℚ) :
    (buyFinalize cfg d pf price now dry_run q c).2 ≠ Outcome.skipped .cashReserveBreach := by
  rw [buyFinalize]
  split
  · simp
  by_cases hB : c ≤ pf.cash
  · rw [if_pos hB]
    simp
  · rw [if_neg hB]
    simp

theorem buyFinalize_ne_positionLimit (cfg : Config) (d : Proposal) (pf : Ledger) (price : ℚ)
    (now : String) (dry_run : Bool) (q : ℤ) (c : ℚ) :
    (buyFinalize cfg d pf price now dry_run q c).2 ≠ Outcome.skipped .positionLimitBreach := by
  rw [buyFinalize]
  split
  · simp
  by_cases hB : c ≤ pf.cash
  · rw [if_pos hB]
    simp
  · rw [if_neg hB]
    simp

theorem buyPositionCheck_ne_cashReserve (cfg : Config) (d : Proposal) (pf : Ledger)
    (price : ℚ) (total_value : ℚ) (now : String) (dry_run : Bool) (q : ℤ) (c : ℚ) :
    (buyPositionCheck cfg d pf price total_value now dry_run q c).2 ≠
      Outcome.skipped .cashReserveBreach := by
  rw [buyPositionCheck]
  dsimp only
  split
  · split
    · split
      · simp
      · exact buyFinalize_ne_cashReserve cfg d pf price now dry_run _ _
    · simp
  · exact buyFinalize_ne_cashReserve cfg d pf price now dry_run q c

/-- Claim C3 (amended): for a BUY that passes the minimum-trade-size
check and triggers the cash-reserve guardrail (`cash - cost < floor` with
`floor = total_value * MIN_CASH_RESERVE_PCT`), the quantity is recomputed
as `int((cash - floor) / price)`, and the proposal is rejected with
CashReserveBreach exactly when the available headroom `cash - floor` is
below MIN_TRADE_VALUE or the recomputed quantity is `≤ 0` — not exactly
when the recomputed quantity's *cost* is below MIN_TRADE_VALUE, as the
claim states (refuted by `C3_counterexample`, where the clamped cost $400
is below the $500 minimum yet the buy is executed).  When not rejected,
the clamped quantity is used and evaluation continues with the
position-limit stage. -/
theorem C3_cash_reserve_clamp (cfg : Config) (d : Proposal) (pf : Ledger)
    (current_prices : List (String × ℚ)) (total_value : ℚ) (now : String) (dry_run : Bool)
    (p : ℚ) (ha : d.action = .BUY) (hconf : ¬ d.confidence = .low)
    (hf : dictFind current_prices d.ticker = some p) (hp : ¬ p = 0)
    (hmin : ¬ (p * (d.quantity : ℚ) < cfg.MIN_TRADE_VALUE))
    (hclamp : pf.cash - p * (d.quantity : ℚ) < total_value * cfg.MIN_CASH_RESERVE_PCT) :
    ((execute_trade cfg d pf current_prices total_value now dry_run).2 =
        Outcome.skipped .cashReserveBreach ↔
      (pf.cash - total_value * cfg.MIN_CASH_RESERVE_PCT < cfg.MIN_TRADE_VALUE ∨
        pyInt ((pf.cash - total_value * cfg.MIN_CASH_RESERVE_PCT) / p) ≤ 0)) ∧
    ((cfg.MIN_TRADE_VALUE ≤ pf.cash - total_value * cfg.MIN_CASH_RESERVE_PCT ∧
        0 < pyInt ((pf.cash - total_value * cfg.MIN_CASH_RESERVE_PCT) / p)) →
      execute_trade cfg d pf current_prices total_value now dry_run =
        buyPositionCheck cfg d pf p total_value now dry_run
          (pyInt ((pf.cash - total_value * cfg.MIN_CASH_RESERVE_PCT) / p))
          (p * (pyInt ((pf.cash - total_value * cfg.MIN_CASH_RESERVE_PCT) / p) : ℚ))) := by
  rw [execute_trade, if_neg hconf, hf]
  dsimp only
  rw [if_neg hp, ha]
  dsimp only
  rw [buyBranch]
  try dsimp only
  rw [if_neg hmin, buyReserveCheck]
  dsimp only
  rw [if_pos hclamp]
  by_cases hav : cfg.MIN_TRADE_VALUE ≤ pf.cash - total_value * cfg.MIN_CASH_RESERVE_PCT
  · rw [if_pos hav]
    by_cases hq1 : pyInt ((pf.cash - total_value * cfg.MIN_CASH_RESERVE_PCT) / p) ≤ 0
    · rw [if_pos hq1]
      refine ⟨⟨fun _ => Or.inr hq1, fun _ => rfl⟩, ?_⟩
      rintro ⟨h1, h2⟩
      exact absurd hq1 (not_le.2 h2)
    · rw [if_neg hq1]
      constructor
      · constructor
        · intro h
          exact absurd h (buyPositionCheck_ne_cashReserve cfg d pf p total_value now
            dry_run _ _)
        · rintro (h | h)
          · exact absurd hav (not_le.2 h)
          · exact absurd h hq1
      · intro h
        rfl
  · rw [if_neg hav]
    refine ⟨⟨fun _ => Or.inl (not_le.1 hav), fun _ => rfl⟩, ?_⟩
    rintro ⟨h1, h2⟩
    exact absurd h1 hav

/-- Counterexample to claim C3 as stated: cash $15700, total value
$100000 (floor $15000, headroom $700 ≥ $500), price $400.  The clamp
recomputes the quantity to `int(700/400) = 1` whose cost $400 is *below*
MIN_TRADE_VALUE = $500, so the claim predicts a CashReserveBreach
rejection — but the code only compares the headroom with
MIN_TRADE_VALUE, keeps the 1-share order, and executes it. -/
theorem C3_counterexample :
    pyInt (((15700 : ℚ) - 100000 * (15 / 100)) / 400) = 1 ∧
    (400 : ℚ) * 1 < 500 ∧
    (execute_trade defaultConfig
      { ticker := "T", action := .BUY, quantity := 40, confidence := .medium, reason := "c" }
      { cash := 15700, holdings := [], cost_basis := [], trades := [] }
      [("T", 400)] 100000 "t" false).2 = Outcome.executed .BUY "T" 1 400 400 := by
  refine ⟨by norm_num [pyInt], by norm_num, ?_⟩
  norm_num +decide [execute_trade, buyBranch, buyReserveCheck, buyPositionCheck,
    buyFinalize, dictFind, dictGet, dictSet, pyInt, defaultConfig, mkRec, pyRound2]

/-- Witness for C3 (amended), at the counterexample's inputs: the clamp
fires, the headroom clears MIN_TRADE_VALUE, the recomputed quantity is
positive, and evaluation continues with the position-limit stage at the
clamped quantity. -/
theorem C3_cash_reserve_clamp_witness :
    (defaultConfig.MIN_TRADE_VALUE ≤ (15700 : ℚ) - 100000 * defaultConfig.MIN_CASH_RESERVE_PCT ∧
      0 < pyInt (((15700 : ℚ) - 100000 * defaultConfig.MIN_CASH_RESERVE_PCT) / 400)) ∧
    execute_trade defaultConfig
      { ticker := "T", action := .BUY, quantity := 40, confidence := .medium, reason := "c" }
      { cash := 15700, holdings := [], cost_basis := [], trades := [] }
      [("T", 400)] 100000 "t" false =
      buyPositionCheck defaultConfig
        { ticker := "T", action := .BUY, quantity := 40, confidence := .medium, reason := "c" }
        { cash := 15700, holdings := [], cost_basis := [], trades := [] } 400 100000 "t" false
        (pyInt (((15700 : ℚ) - 100000 * defaultConfig.MIN_CASH_RESERVE_PCT) / 400))
        (400 * (pyInt (((15700 : ℚ) - 100000 * defaultConfig.MIN_CASH_RESERVE_PCT) / 400) : ℚ)) :=
  ⟨⟨by norm_num [defaultConfig], by norm_num [defaultConfig, pyInt]⟩,
   (C3_cash_reserve_clamp defaultConfig _ _ _ _ _ _ 400 rfl (by decide)
      (by norm_num +decide [dictFind]) (by norm_num) (by norm_num [defaultConfig])
      (by norm_num [defaultConfig])).2
     ⟨by norm_num [defaultConfig], by norm_num [defaultConfig, pyInt]⟩⟩

/-- Claim C4 (amended): for a BUY that passes the minimum-trade-size and
cash-reserve checks and triggers the position cap
(`existing_position_value + cost > cap` with
`cap = total_value * MAX_POSITION_PCT`), the quantity is recomputed as
`int((cap - existing)/price)`, and the proposal is rejected with
PositionLimitBreach exactly when the remaining position headroom
`cap - existing` is below MIN_TRADE_VALUE or the recomputed quantity is
`≤ 0` — not exactly when the recomputed quantity's *cost* is below
MIN_TRADE_VALUE, as the claim states (refuted by `C4_counterexample`);
otherwise the clamped quantity is used for the final steps.  The claim's
concrete scenarios do hold and are checked in the witness: with total
value $100000, cap 10%, an $8000 position, a 100-share BUY at $50 clamps
to 40 shares when MIN_TRADE_VALUE = 500, and is rejected with
PositionLimitBreach when MIN_TRADE_VALUE = 2500. -/
theorem C4_position_limit_clamp (cfg : Config) (d : Proposal) (pf : Ledger)
    (current_prices : List (String × ℚ)) (total_value : ℚ) (now : String) (dry_run : Bool)
    (p : ℚ) (ha : d.action = .BUY) (hconf : ¬ d.confidence = .low)
    (hf : dictFind current_prices d.ticker = some p) (hp : ¬ p = 0)
    (hmin : ¬ (p * (d.quantity : ℚ) < cfg.MIN_TRADE_VALUE))
    (hres : ¬ (pf.cash - p * (d.quantity : ℚ) < total_value * cfg.MIN_CASH_RESERVE_PCT))
    (hover : total_value * cfg.MAX_POSITION_PCT <
      ((dictGet pf.holdings d.ticker 0 : ℤ) : ℚ) * p + p * (d.quantity : ℚ)) :
    ((execute_trade cfg d pf current_prices total_value now dry_run).2 =
        Outcome.skipped .positionLimitBreach ↔
      (total_value * cfg.MAX_POSITION_PCT - ((dictGet pf.holdings d.ticker 0 : ℤ) : ℚ) * p <
          cfg.MIN_TRADE_VALUE ∨
        pyInt ((total_value * cfg.MAX_POSITION_PCT -
          ((dictGet pf.holdings d.ticker 0 : ℤ) : ℚ) * p) / p) ≤ 0)) ∧
    ((cfg.MIN_TRADE_VALUE ≤ total_value * cfg.MAX_POSITION_PCT -
          ((dictGet pf.holdings d.ticker 0 : ℤ) : ℚ) * p ∧
        0 < pyInt ((total_value * cfg.MAX_POSITION_PCT -
          ((dictGet pf.holdings d.ticker 0 : ℤ) : ℚ) * p) / p)) →
      execute_trade cfg d pf current_prices total_value now dry_run =
        buyFinalize cfg d pf p now dry_run
          (pyInt ((total_value * cfg.MAX_POSITION_PCT -
            ((dictGet pf.holdings d.ticker 0 : ℤ) : ℚ) * p) / p))
          (p * (pyInt ((total_value * cfg.MAX_POSITION_PCT -
            ((dictGet pf.holdings d.ticker 0 : ℤ) : ℚ) * p) / p) : ℚ))) := by
  rw [execute_trade, if_neg hconf, hf]
  dsimp only
  rw [if_neg hp, ha]
  dsimp only
  rw [buyBranch]
  try dsimp only
  rw [if_neg hmin, buyReserveCheck]
  dsimp only
  rw [if_neg hres, buyPositionCheck]
  dsimp only
  rw [if_pos hover]
  by_cases hallow : cfg.MIN_TRADE_VALUE ≤ total_value * cfg.MAX_POSITION_PCT -
      ((dictGet pf.holdings d.ticker 0 : ℤ) : ℚ) * p
  · rw [if_pos hallow]
    by_cases hq2 : pyInt ((total_value * cfg.MAX_POSITION_PCT -
        ((dictGet pf.holdings d.ticker 0 : ℤ) : ℚ) * p) / p) ≤ 0
    · rw [if_pos hq2]
      refine ⟨⟨fun _ => Or.inr hq2, fun _ => rfl⟩, ?_⟩
      rintro ⟨h1, h2⟩
      exact absurd hq2 (not_le.2 h2)
    · rw [if_neg hq2]
      constructor
      · constructor
        · intro h
          exact absurd h (buyFinalize_ne_positionLimit cfg d pf p now dry_run _ _)
        · rintro (h | h)
          · exact absurd hallow (not_le.2 h)
          · exact absurd h hq2
      · intro h
        rfl
  · rw [if_neg hallow]
    refine ⟨⟨fun _ => Or.inl (not_le.1 hallow), fun _ => rfl⟩, ?_⟩
    rintro ⟨h1, h2⟩
    exact absurd h1 hallow

/-- Counterexample to claim C4 as stated: cash $50000, total value
$100000 (cap $10000), 21 shares held at price $450 (existing value
$9450, headroom $550 ≥ $500), proposed 10-share BUY.  The clamp
recomputes the quantity to `int(550/450) = 1`, whose cost $450 is *below*
MIN_TRADE_VALUE = $500, so the claim predicts a PositionLimitBreach
rejection — but the code only compares the headroom with MIN_TRADE_VALUE
and executes the 1-share, $450 buy. -/
theorem C4_counterexample :
    pyInt (((100000 : ℚ) * (10 / 100) - 21 * 450) / 450) = 1 ∧
    (450 : ℚ) * 1 < 500 ∧
    (execute_trade defaultConfig
      { ticker := "T", action := .BUY, quantity := 10, confidence := .medium, reason := "c" }
      { cash := 50000, holdings := [("T", 21)], cost_basis := [("T", 9450)], trades := [] }
      [("T", 450)] 100000 "t" false).2 = Outcome.executed .BUY "T" 1 450 450 := by
  refine ⟨by norm_num [pyInt], by norm_num, ?_⟩
  norm_num +decide [execute_trade, buyBranch, buyReserveCheck, buyPositionCheck,
    buyFinalize, dictFind, dictGet, dictSet, pyInt, defaultConfig, mkRec, pyRound2]

/-- Witness for C4 (amended), at the spec's position-limit scenarios:
with MIN_TRADE_VALUE = 500 the 100-share BUY at $50 against an $8000
position under a $10000 cap is clamped to `int(2000/50) = 40` shares
($2000) and executed; with MIN_TRADE_VALUE = 2500 the same proposal is
rejected with PositionLimitBreach. -/
theorem C4_position_limit_clamp_witness :
    (defaultConfig.MIN_TRADE_VALUE ≤ (100000 : ℚ) * defaultConfig.MAX_POSITION_PCT - 160 * 50 ∧
      0 < pyInt (((100000 : ℚ) * defaultConfig.MAX_POSITION_PCT - 160 * 50) / 50)) ∧
    execute_trade defaultConfig
      { ticker := "T", action := .BUY, quantity := 100, confidence := .high, reason := "w" }
      { cash := 25000, holdings := [("T", 160)], cost_basis := [("T", 8000)], trades := [] }
      [("T", 50)] 100000 "t" false =
      buyFinalize defaultConfig
        { ticker := "T", action := .BUY, quantity := 100, confidence := .high, reason := "w" }
        { cash := 25000, holdings := [("T", 160)], cost_basis := [("T", 8000)], trades := [] }
        50 "t" false
        (pyInt (((100000 : ℚ) * defaultConfig.MAX_POSITION_PCT -
          ((dictGet [("T", (160:ℤ))] "T" 0 : ℤ) : ℚ) * 50) / 50))
        (50 * (pyInt (((100000 : ℚ) * defaultConfig.MAX_POSITION_PCT -
          ((dictGet [("T", (160:ℤ))] "T" 0 : ℤ) : ℚ) * 50) / 50) : ℚ)) ∧
    (buyFinalize defaultConfig
        { ticker := "T", action := .BUY, quantity := 100, confidence := .high, reason := "w" }
        { cash := 25000, holdings := [("T", 160)], cost_basis := [("T", 8000)], trades := [] }
        50 "t" false 40 2000).2 = Outcome.executed .BUY "T" 40 50 2000 ∧
    (execute_trade { defaultConfig with MIN_TRADE_VALUE := 2500 }
      { ticker := "T", action := .BUY, quantity := 100, confidence := .high, reason := "w" }
      { cash := 25000, holdings := [("T", 160)], cost_basis := [("T", 8000)], trades := [] }
      [("T", 50)] 100000 "t" false).2 = Outcome.skipped .positionLimitBreach := by
  refine ⟨⟨by norm_num [defaultConfig], by norm_num +decide [defaultConfig, pyInt, dictGet, dictFind]⟩,
    ?_, ?_, ?_⟩
  · exact (C4_position_limit_clamp defaultConfig _ _ _ _ _ _ 50 rfl (by decide)
      (by norm_num +decide [dictFind]) (by norm_num)
      (by norm_num +decide [defaultConfig, dictGet, dictFind])
      (by norm_num +decide [defaultConfig, dictGet, dictFind])
      (by norm_num +decide [defaultConfig, dictGet, dictFind])).2
      ⟨by norm_num +decide [defaultConfig, dictGet, dictFind],
       by norm_num +decide [defaultConfig, pyInt, dictGet, dictFind]⟩
  · norm_num +decide [buyFinalize, dictFind, dictGet, dictSet, defaultConfig, mkRec, pyRound2]
  · norm_num +decide [execute_trade, buyBranch, buyReserveCheck, buyPositionCheck,
      buyFinalize, dictFind, dictGet, dictSet, pyInt, defaultConfig, mkRec, pyRound2]

/-! ### Claim C6 -/

theorem riskProposal_ticker {cfg : Config} {cb ps : List (String × ℚ)} {entry : String × ℤ}
    {prop : Proposal} (h : riskProposal cfg cb ps entry = some prop) :
    prop.ticker = entry.1 := by
  rw [riskProposal] at h
  repeat' (first | split at h | dsimp only at h)
  all_goals first
    | (injection h with h; rw [← h])
    | injection h

/-- Claim C6: for every held ticker with a known non-zero price and
non-zero average cost (`avg_cost = cost_basis/shares` when `shares > 0`,
else `0`), the risk sweep with `pnl_pct = (price - avg_cost)/avg_cost`
produces no forced trade for that ticker when
`STOP_LOSS_PCT < pnl_pct < TAKE_PROFIT_PCT`, a forced SELL of the entire
held quantity at high confidence when `pnl_pct ≤ STOP_LOSS_PCT`, and a
forced SELL of `max 1 (shares // 2)` at high confidence when
`pnl_pct ≥ TAKE_PROFIT_PCT`. -/
theorem C6_risk_sweep (pf : Ledger) (current_prices : List (String × ℚ)) (ticker : String)
    (shares : ℤ) (p avg_cost pnl_pct : ℚ)
    (hmem : (ticker, shares) ∈ pf.holdings)
    (hnd : (pf.holdings.map Prod.fst).Nodup)
    (hf : dictFind current_prices ticker = some p) (hp : ¬ p = 0) (hs : ¬ shares = 0)
    (havg_def : avg_cost =
      if 0 < shares then dictGet pf.cost_basis ticker 0 / (shares : ℚ) else 0)
    (havg : ¬ avg_cost = 0)
    (hpnl : pnl_pct = (p - avg_cost) / avg_cost) :
    ((defaultConfig.STOP_LOSS_PCT < pnl_pct ∧ pnl_pct < defaultConfig.TAKE_PROFIT_PCT) →
      ∀ q ∈ enforce_risk_rules defaultConfig pf current_prices, q.ticker ≠ ticker) ∧
    (pnl_pct ≤ defaultConfig.STOP_LOSS_PCT →
      Proposal.mk ticker .SELL shares .high stopLossReason ∈
        enforce_risk_rules defaultConfig pf current_prices) ∧
    (defaultConfig.TAKE_PROFIT_PCT ≤ pnl_pct →
      Proposal.mk ticker .SELL (max 1 (Int.fdiv shares 2)) .high takeProfitReason ∈
        enforce_risk_rules defaultConfig pf current_prices) := by
  have hbase : ∀ r, riskProposal defaultConfig pf.cost_basis current_prices (ticker, shares) =
      r → riskProposal defaultConfig pf.cost_basis current_prices (ticker, shares) = r :=
    fun _ h => h
  have hred : riskProposal defaultConfig pf.cost_basis current_prices (ticker, shares) =
      (if pnl_pct ≤ defaultConfig.STOP_LOSS_PCT then
        some (Proposal.mk ticker .SELL shares .high stopLossReason)
      else if defaultConfig.TAKE_PROFIT_PCT ≤ pnl_pct then
        some (Proposal.mk ticker .SELL (max 1 (Int.fdiv shares 2)) .high takeProfitReason)
      else none) := by
    rw [riskProposal, hf]
    dsimp only
    rw [if_neg hp, if_neg hs, ← havg_def, if_neg havg, ← hpnl]
  refine ⟨?_, ?_, ?_⟩
  · rintro ⟨h1, h2⟩ q hq
    have hnone : riskProposal defaultConfig pf.cost_basis current_prices (ticker, shares) =
        none := by
      rw [hred, if_neg (not_le.2 h1), if_neg (not_le.2 h2)]
    rcases List.mem_filterMap.1 hq with ⟨e, he, heq⟩
    intro hqt
    have het : e.1 = ticker := by rw [← riskProposal_ticker heq, hqt]
    have hee : e = (ticker, shares) := nodupKeys_eq hnd he hmem het
    rw [hee] at heq
    rw [hnone] at heq
    exact absurd heq (by simp)
  · intro h
    refine List.mem_filterMap.2 ⟨(ticker, shares), hmem, ?_⟩
    rw [hred, if_pos h]
  · intro h
    refine List.mem_filterMap.2 ⟨(ticker, shares), hmem, ?_⟩
    have hnot : ¬ pnl_pct ≤ defaultConfig.STOP_LOSS_PCT := by
      rw [not_le]
      have h1 : defaultConfig.STOP_LOSS_PCT < defaultConfig.TAKE_PROFIT_PCT := by
        norm_num [defaultConfig]
      exact lt_of_lt_of_le h1 h
    rw [hred, if_neg hnot, if_pos h]

/-- Witness for C6: the spec's stop-loss scenario — 100 shares at average
cost $100, price $89, `pnl_pct = -0.11 ≤ -0.10` — forces a SELL of the
entire 100-share position at high confidence. -/
theorem C6_risk_sweep_witness :
    ((-11)/100 : ℚ) ≤ defaultConfig.STOP_LOSS_PCT ∧
    Proposal.mk "T" .SELL 100 .high stopLossReason ∈
      enforce_risk_rules defaultConfig
        { cash := 0, holdings := [("T", 100)], cost_basis := [("T", 10000)], trades := [] }
        [("T", 89)] :=
  ⟨by norm_num [defaultConfig],
   (C6_risk_sweep _ _ "T" 100 89 100 ((-11)/100) (by decide) (by decide)
      (by norm_num +decide [dictFind]) (by norm_num) (by norm_num)
      (by norm_num +decide [dictGet, dictFind]) (by norm_num)
      (by norm_num)).2.1 (by norm_num [defaultConfig])⟩

/-! ### Claim C8 -/

/-- Claim C8: on an executed SELL of `0 < quantity < owned` shares, the
ticker's `cost_basis` entry is scaled by `1 - quantity/owned`, so the
average cost `cost_basis/shares` of the remaining shares is unchanged. -/
theorem C8_proportional_cost_basis (cfg : Config) (d : Proposal) (pf : Ledger)
    (current_prices : List (String × ℚ)) (total_value : ℚ) (now : String) (p : ℚ)
    (ha : d.action = .SELL) (hc : ¬ d.confidence = .low)
    (hf : dictFind current_prices d.ticker = some p) (hp : ¬ p = 0)
    (hq : 0 < d.quantity) (hlt : d.quantity < dictGet pf.holdings d.ticker 0) :
    dictGet (execute_trade cfg d pf current_prices total_value now false).1.cost_basis
        d.ticker 0 =
      dictGet pf.cost_basis d.ticker 0 *
        (1 - (d.quantity : ℚ) / ((dictGet pf.holdings d.ticker 0 : ℤ) : ℚ)) ∧
    dictGet (execute_trade cfg d pf current_prices total_value now false).1.cost_basis
        d.ticker 0 / ((dictGet pf.holdings d.ticker 0 - d.quantity : ℤ) : ℚ) =
      dictGet pf.cost_basis d.ticker 0 / ((dictGet pf.holdings d.ticker 0 : ℤ) : ℚ) := by
  rw [execute_trade, if_neg hc, hf]
  dsimp only
  rw [if_neg hp, ha]
  dsimp only
  rw [sellBranch]
  dsimp only
  rw [if_pos ⟨hlt.le, hq⟩]
  dsimp only
  rw [if_neg (show ¬ (false = true) by simp)]
  rw [if_neg (show ¬ (dictGet pf.holdings d.ticker 0 - d.quantity = 0) from
    sub_ne_zero.2 (ne_of_gt hlt))]
  dsimp only
  rw [dictGet_dictSet_self]
  have ho : (0:ℚ) < ((dictGet pf.holdings d.ticker 0 : ℤ) : ℚ) := by
    exact_mod_cast lt_trans hq hlt
  have ho' : ((dictGet pf.holdings d.ticker 0 : ℤ) : ℚ) ≠ 0 := ne_of_gt ho
  have hqo : (d.quantity : ℚ) < ((dictGet pf.holdings d.ticker 0 : ℤ) : ℚ) := by
    exact_mod_cast hlt
  have hoq : ((dictGet pf.holdings d.ticker 0 : ℤ) : ℚ) - (d.quantity : ℚ) ≠ 0 :=
    ne_of_gt (sub_pos.2 hqo)
  constructor
  · rfl
  · push_cast
    field_simp
    ring

/-- Witness for C8: selling 4 of 10 shares with cost basis $100 leaves
`cost_basis = 100 * (1 - 4/10) = 60`, preserving the $10 average cost. -/
theorem C8_proportional_cost_basis_witness :
    (0 : ℤ) < 4 ∧ (4 : ℤ) < dictGet [("T", (10:ℤ))] "T" 0 ∧
    dictGet (execute_trade defaultConfig
        { ticker := "T", action := .SELL, quantity := 4, confidence := .high, reason := "w" }
        { cash := 0, holdings := [("T", 10)], cost_basis := [("T", 100)], trades := [] }
        [("T", 5)] 50 "t" false).1.cost_basis "T" 0 =
      dictGet [("T", (100:ℚ))] "T" 0 *
        (1 - ((4:ℤ) : ℚ) / ((dictGet [("T", (10:ℤ))] "T" 0 : ℤ) : ℚ)) :=
  ⟨by decide, by norm_num +decide [dictGet, dictFind],
   (C8_proportional_cost_basis defaultConfig _ _ _ _ _ 5 rfl (by decide)
      (by norm_num +decide [dictFind]) (by norm_num) (by decide)
      (by norm_num +decide [dictGet, dictFind])).1⟩

end SwissTrader
